import Mathlib

/-!
Verification of the sandboxed code-execution core of the
`online-data-scientist` repository (`src/code_executor.py`).

The Python module is shallowly embedded: pure helpers become Lean
functions over `String`/`List`; the CPython `ast` fragment that
`validate_code` inspects becomes an inductive syntax-tree type with a
breadth-first `walk` mirroring `ast.walk`; `exec`, whose semantics is
outside the module, is an oracle parameter describing what evaluating
the script did (normal termination with the bindings it made, a
`MemoryError`, another exception, or a timeout), and the
process-orchestration of `_execute_in_process` is driven by an input
describing the observed child-process state.  All definitions are
translated from the source; the only spec-side definition is
`spec_io_primitives`, which names what the specification's "no I/O
primitives" requirement refers to.
-/

namespace CodeExecutor

/-! ## String helpers

Python's `str.strip`, `str.lower`, `pattern in s` and
`name.split('.')[0]` are modelled on the character list of the string
(all uses in the repository are ASCII). -/

/-- Python `str.strip()`: drop leading and trailing whitespace. -/
def pyStrip (s : String) : String :=
  String.mk ((((s.toList.dropWhile Char.isWhitespace).reverse).dropWhile Char.isWhitespace).reverse)

/-- Python `str.lower()` (ASCII model). -/
def pyLower (s : String) : String :=
  String.mk (s.toList.map Char.toLower)

/-- Does the pattern match at the head of the character list? -/
def matchesAt : List Char → List Char → Bool
  | [], _ => true
  | _ :: _, [] => false
  | p :: ps, c :: cs => p == c && matchesAt ps cs

/-- Python `pat in s` on character lists: `pat` occurs contiguously. -/
def hasSubList (pat : List Char) : List Char → Bool
  | [] => matchesAt pat []
  | c :: cs => matchesAt pat (c :: cs) || hasSubList pat cs

/-- Python `pat in s` for strings. -/
def strContainsSub (s pat : String) : Bool :=
  hasSubList pat.toList s.toList

/-- Python `name.split('.')[0]`: the top-level module of a dotted name. -/
def topLevel (m : String) : String :=
  String.mk (m.toList.takeWhile (fun c => c ≠ '.'))

/-- Boolean membership in a list of strings (Python `x in {...}`). -/
def memb (x : String) : List String → Bool
  | [] => false
  | y :: ys => x == y || memb x ys

/-! ## The Python syntax-tree fragment inspected by `validate_code`

`validate_code` distinguishes `ast.Import`, `ast.ImportFrom` and
`ast.Call` nodes (with `Name` and `Attribute` callees); every other
node kind is walked but never flagged.  The embedding keeps the node
kinds that the claims mention (`Lambda`, `FunctionDef`, `ClassDef`,
`Delete`, plus enough expression forms to write the sample scripts). -/

/-- Python expressions (the fragment the validator can encounter). -/
inductive PyExpr where
  | name (id : String)
  | attributeE (value : PyExpr) (attr : String)
  | call (func : PyExpr) (args : List PyExpr)
  | lambdaE (body : PyExpr)
  | constant (repr : String)
  | binop (lhs rhs : PyExpr)

/-- Python statements (the fragment the validator can encounter). -/
inductive PyStmt where
  | importStmt (names : List String)
  | importFromS (mod : Option String) (names : List String)
  | assign (target : String) (value : PyExpr)
  | exprStmt (e : PyExpr)
  | funcDef (name : String) (body : List PyStmt)
  | classDef (name : String) (body : List PyStmt)
  | delStmt (targets : List String)
  | whileStmt (cond : PyExpr) (body : List PyStmt)

/-- A node of the tree, as visited by `ast.walk`. -/
abbrev Node := Sum PyStmt PyExpr

/-- The child nodes of a node (`ast.iter_child_nodes`). -/
def children : Node → List Node
  | Sum.inl (PyStmt.importStmt _) => []
  | Sum.inl (PyStmt.importFromS _ _) => []
  | Sum.inl (PyStmt.assign _ v) => [Sum.inr v]
  | Sum.inl (PyStmt.exprStmt e) => [Sum.inr e]
  | Sum.inl (PyStmt.funcDef _ b) => b.map Sum.inl
  | Sum.inl (PyStmt.classDef _ b) => b.map Sum.inl
  | Sum.inl (PyStmt.delStmt _) => []
  | Sum.inl (PyStmt.whileStmt c b) => Sum.inr c :: b.map Sum.inl
  | Sum.inr (PyExpr.name _) => []
  | Sum.inr (PyExpr.attributeE v _) => [Sum.inr v]
  | Sum.inr (PyExpr.call f args) => Sum.inr f :: args.map Sum.inr
  | Sum.inr (PyExpr.lambdaE b) => [Sum.inr b]
  | Sum.inr (PyExpr.constant _) => []
  | Sum.inr (PyExpr.binop l r) => [Sum.inr l, Sum.inr r]

mutual
/-- Size of an expression (number of nodes). -/
def exprSize : PyExpr → Nat
  | PyExpr.name _ => 1
  | PyExpr.attributeE v _ => 1 + exprSize v
  | PyExpr.call f args => 1 + exprSize f + exprsSize args
  | PyExpr.lambdaE b => 1 + exprSize b
  | PyExpr.constant _ => 1
  | PyExpr.binop l r => 1 + exprSize l + exprSize r
/-- Total size of a list of expressions. -/
def exprsSize : List PyExpr → Nat
  | [] => 0
  | e :: es => exprSize e + exprsSize es
end

mutual
/-- Size of a statement (number of nodes). -/
def stmtSize : PyStmt → Nat
  | PyStmt.importStmt _ => 1
  | PyStmt.importFromS _ _ => 1
  | PyStmt.assign _ v => 1 + exprSize v
  | PyStmt.exprStmt e => 1 + exprSize e
  | PyStmt.funcDef _ b => 1 + stmtsSize b
  | PyStmt.classDef _ b => 1 + stmtsSize b
  | PyStmt.delStmt _ => 1
  | PyStmt.whileStmt c b => 1 + exprSize c + stmtsSize b
/-- Total size of a list of statements. -/
def stmtsSize : List PyStmt → Nat
  | [] => 0
  | s :: ss => stmtSize s + stmtsSize ss
end

/-- Size of a node. -/
def nodeSize : Node → Nat
  | Sum.inl s => stmtSize s
  | Sum.inr e => exprSize e

/-- Total size of a worklist of nodes. -/
def sizeList : List Node → Nat
  | [] => 0
  | n :: ns => nodeSize n + sizeList ns

/-- Breadth-first traversal (`ast.walk`): pop the head of the queue,
emit it, push its children at the back.  The fuel argument makes the
recursion structural; `walk` supplies exactly enough fuel. -/
def walkAux : Nat → List Node → List Node
  | _, [] => []
  | 0, _ :: _ => []
  | Nat.succ f, n :: rest => n :: walkAux f (rest ++ children n)

/-- `ast.walk` of a forest of nodes, in breadth-first (queue) order. -/
def walk (ns : List Node) : List Node :=
  walkAux (sizeList ns) ns

/-- All nodes of a parsed module body, in `ast.walk` order. -/
def walkAll (body : List PyStmt) : List Node :=
  walk (body.map Sum.inl)

/-! ## The static validator (`validate_code`, lines 240-315) -/

/-- Dangerous operations that should be blocked (source lines 241-246). -/
def DANGEROUS_IMPORTS : List String :=
  ["os", "sys", "subprocess", "socket", "requests", "urllib",
   "ftplib", "smtplib", "telnetlib", "pickle", "marshal", "eval",
   "exec", "compile", "__import__", "open", "input", "raw_input",
   "reload", "exit", "quit"]

/-- Dangerous AST node types (source lines 249-252).  Declared by the
module but, as claim C10 records, never consulted by `validate_code`. -/
def DANGEROUS_NODE_TYPES : List String :=
  ["Import", "ImportFrom", "Call", "Lambda", "FunctionDef",
   "ClassDef", "AsyncFunctionDef", "Delete"]

/-- Allowed built-ins for code execution (source lines 255-264). -/
def SAFE_BUILTINS : List String :=
  ["abs", "all", "any", "bin", "bool", "bytearray", "bytes",
   "chr", "complex", "dict", "divmod", "enumerate", "filter",
   "float", "format", "frozenset", "hasattr", "hash", "hex",
   "id", "int", "isinstance", "issubclass", "iter", "len",
   "list", "map", "max", "min", "next", "oct", "ord", "pow",
   "range", "repr", "reversed", "round", "set", "slice",
   "sorted", "str", "sum", "tuple", "type", "vars", "zip",
   "print"]

/-- The check `validate_code` performs at a single walked node
(the body of the `for node in ast.walk(tree)` loop, lines 289-313). -/
def checkNode (node : Node) : Option String :=
  match node with
  | Sum.inl (PyStmt.importStmt names) =>
    List.findSome? (fun a =>
      let module_name := topLevel a
      if memb module_name DANGEROUS_IMPORTS then
        some ("Import of '" ++ module_name ++ "' is not allowed for security reasons")
      else none) names
  | Sum.inl (PyStmt.importFromS mod _) =>
    match mod with
    | some m =>
      let module_name := topLevel m
      if memb module_name DANGEROUS_IMPORTS then
        some ("Import from '" ++ module_name ++ "' is not allowed for security reasons")
      else none
    | none => none
  | Sum.inr (PyExpr.call f _) =>
    match f with
    | PyExpr.name id =>
      if memb id ["eval", "exec", "compile", "__import__", "open"] then
        some ("Call to '" ++ id ++ "' is not allowed for security reasons")
      else none
    | PyExpr.attributeE _ a =>
      if memb a ["eval", "exec"] then
        some ("Call to '" ++ a ++ "' is not allowed for security reasons")
      else none
    | _ => none
  | _ => none

/-- What `ast.parse` produced for a source string: a syntax error or a
module body. -/
inductive ParseOutcome where
  | parseError (msg : String)
  | parsed (body : List PyStmt)

/-- A source string together with its parse (the embedding decouples
the text, used only for the emptiness check, from the tree that
`ast.parse` yields for it). -/
structure PySource where
  text : String
  parse : ParseOutcome

/-- `validate_code` (source lines 267-315): accept empty/whitespace
source; reject a parse failure; otherwise walk every node and reject
on the first dangerous import or call. -/
def validate_code (code : PySource) : Bool × Option String :=
  if pyStrip code.text = "" then (true, none)
  else
    match code.parse with
    | ParseOutcome.parseError msg =>
      (false, some ("Syntax error in generated code: " ++ msg))
    | ParseOutcome.parsed body =>
      match List.findSome? checkNode (walkAll body) with
      | some msg => (false, some msg)
      | none => (true, none)

/-! ## The execution environment builder (`create_restricted_globals`) -/

/-- A value bound in the execution namespace: the restricted
`__builtins__` mapping, or an opaque capability handle. -/
inductive GVal (α : Type) where
  | builtinsDict (entries : List (String × α))
  | handle (h : α)

/-- The names under which `create_restricted_globals` binds its
optional capability arguments (source lines 347-362). -/
def capability_names : List String :=
  ["pl", "pd", "st", "gpd", "alt", "px", "go", "folium"]

/-- One `if x is not None: restricted_globals['x'] = x` step. -/
def optEntry {α : Type} (n : String) (o : Option α) : List (String × GVal α) :=
  match o with
  | some v => [(n, GVal.handle v)]
  | none => []

/-- `create_restricted_globals` (source lines 318-364).  `host` is the
interpreter's ambient `__builtins__` mapping; the restricted builtins
are the allow-listed names looked up in it. -/
def create_restricted_globals {α : Type} (host : List (String × α))
    (pl pd st gpd alt px go folium : Option α) : List (String × GVal α) :=
  let restricted_builtins :=
    SAFE_BUILTINS.filterMap (fun name =>
      (List.lookup name host).map (fun v => (name, v)))
  [("__builtins__", GVal.builtinsDict restricted_builtins)]
    ++ optEntry "pl" pl ++ optEntry "pd" pd ++ optEntry "st" st
    ++ optEntry "gpd" gpd ++ optEntry "alt" alt ++ optEntry "px" px
    ++ optEntry "go" go ++ optEntry "folium" folium

/-- Spec-side definition (§4.2 "no I/O, no reflection into the host's
module system"): the host-language primitives that perform console or
file input/output.  Used to state what the specification's "no I/O
primitives" requirement excludes. -/
def spec_io_primitives : List String :=
  ["print", "open", "input", "breakpoint"]

/-! ## The resource limiter (`set_resource_limits`, lines 43-81) -/

/-- `set_resource_limits`.  `resourceAvailable` is the module-level
`RESOURCE_AVAILABLE` flag (whether `import resource` succeeded);
`rlimitError` is the message of the `ValueError`/`OSError` raised by
`setrlimit`, when one is raised. -/
def set_resource_limits (resourceAvailable : Bool)
    (max_memory_mb max_cpu_time_seconds : Nat)
    (rlimitError : Option String) : Bool × Option String :=
  if resourceAvailable = false then
    (false, some "Resource limits not available on this platform")
  else
    match rlimitError with
    | some e => (false, some ("Failed to set resource limits: " ++ e))
    | none => (true, none)

/-! ## The execution host (`execute_code_securely`, lines 367-442, and
`_execute_in_process`, lines 162-237) -/

/-- The two isolation strategies of §4.4. -/
inductive Strategy where
  | inProcess
  | subproc
deriving DecidableEq

/-- The strategy the host picks (line 418: `if hasattr(signal,
'SIGALRM')`).  Note it depends only on SIGALRM availability. -/
def chosen_strategy (hasSigalrm : Bool) : Strategy :=
  if hasSigalrm then Strategy.inProcess else Strategy.subproc

/-- What evaluating the validated script with `exec` did: normal
termination with the local bindings it created, or an exception.  For
the exception cases `leftover` holds the bindings made before the
exception was raised (`exec` mutates its locals dictionary in place). -/
inductive ScriptResult (α : Type) where
  | ok (bindings : List (String × α))
  | memoryError (leftover : List (String × α))
  | raises (excName excMsg : String) (leftover : List (String × α))

/-- What happened inside the `execution_timeout` block of the
in-process strategy: the deadline alarm fired, or the script ran to
an outcome. -/
inductive InProcEvent (α : Type) where
  | timedOut (leftover : List (String × α))
  | ran (r : ScriptResult α)

/-- The shared `return_dict` a child process fills in
(`_execute_in_process.target_func`).  `none` fields model absent
dictionary keys. -/
structure ReturnDict (α : Type) where
  success : Option Bool
  result : Option α
  retGlobals : Option (List (String × α))
  error : Option String

/-- The observed state of the child process after `join(timeout)`:
whether it is still alive, its exit code, and the return dictionary. -/
structure SubprocessRun (α : Type) where
  alive : Bool
  exitcode : Int
  return_dict : ReturnDict α

/-- The body of `target_func` (lines 187-204): run the script in a
fresh locals dictionary and fill the return dictionary. -/
def target_func {α : Type} (memory_limit_mb : Nat) (r : ScriptResult α) :
    ReturnDict α :=
  match r with
  | ScriptResult.ok binds =>
    { success := some true
      result := List.lookup "result" binds
      retGlobals := some (binds.filter (fun kv => kv.1 ≠ "__builtins__"))
      error := none }
  | ScriptResult.memoryError _ =>
    { success := some false
      result := none
      retGlobals := none
      error := some ("MemoryError: Code exceeded memory limit of "
                      ++ toString memory_limit_mb ++ " MB") }
  | ScriptResult.raises en em _ =>
    { success := some false
      result := none
      retGlobals := none
      error := some (en ++ ": " ++ em) }

/-- Set a key in an association list (Python `d[k] = v`). -/
def setKey {α : Type} : List (String × α) → String → α → List (String × α)
  | [], k, v => [(k, v)]
  | (k0, v0) :: rest, k, v =>
    if k0 == k then (k, v) :: rest else (k0, v0) :: setKey rest k v

/-- Python `d.update(bs)`: set every binding of `bs` in `d`. -/
def updateAll {α : Type} (d : List (String × α))
    (bs : List (String × α)) : List (String × α) :=
  bs.foldl (fun acc kv => setKey acc kv.1 kv.2) d

/-- `_execute_in_process` (lines 162-237), given the observed child
state: a still-alive child is killed and reported as a timeout; a
non-zero exit code and a missing `success` key are failures; otherwise
the child's verdict is returned, copying its new bindings into
`global_vars` on success. -/
def _execute_in_process {α : Type} (global_vars : List (String × α))
    (timeout : Nat) (run : SubprocessRun α) :
    (Bool × Option String × Option α) × List (String × α) :=
  if run.alive then
    ((false, some ("Code execution timed out after " ++ toString timeout
                    ++ " seconds"), none), global_vars)
  else if run.exitcode ≠ 0 then
    ((false, some ("Code execution failed with exit code "
                    ++ toString run.exitcode), none), global_vars)
  else
    match run.return_dict.success with
    | none => ((false, some "Code execution failed unexpectedly", none), global_vars)
    | some true =>
      let g2 := match run.return_dict.retGlobals with
        | some gs => updateAll global_vars gs
        | none => global_vars
      ((true, none, run.return_dict.result), g2)
    | some false =>
      ((false, some (run.return_dict.error.getD "Unknown error"), none), global_vars)

/-- `execute_code_securely` (lines 367-442): validate, build the
restricted namespace, set resource limits (result ignored by the
source), then run under the strategy picked by SIGALRM availability.
The behaviour of `exec` on the validated script is supplied by the
oracles `ev` (in-process) and `sp` (subprocess), both given the
restricted namespace handed to the interpreter. -/
def execute_code_securely {α : Type} (hasSigalrm resourceAvailable : Bool)
    (rlimitError : Option String) (code : PySource)
    (global_variables : List (String × α)) (host : List (String × α))
    (pl pd st gpd alt px go folium : Option α)
    (timeout memory_limit_mb cpu_time_limit_seconds : Nat)
    (ev : List (String × GVal α) → InProcEvent α)
    (sp : List (String × GVal α) → SubprocessRun α) :
    (Bool × Option String × Option α) × List (String × α) :=
  let v := validate_code code
  if v.1 then
    let restricted_globals :=
      create_restricted_globals host pl pd st gpd alt px go folium
    let _rl := set_resource_limits resourceAvailable memory_limit_mb
                 cpu_time_limit_seconds rlimitError
    match chosen_strategy hasSigalrm with
    | Strategy.inProcess =>
      match ev restricted_globals with
      | InProcEvent.timedOut leftover =>
        ((false, some ("Code execution timed out after " ++ toString timeout
                        ++ " seconds"), none), updateAll global_variables leftover)
      | InProcEvent.ran (ScriptResult.ok binds) =>
        let g2 := updateAll global_variables binds
        ((true, none, List.lookup "result" g2), g2)
      | InProcEvent.ran (ScriptResult.memoryError leftover) =>
        ((false, some ("Code exceeded memory limit of "
                        ++ toString memory_limit_mb ++ " MB"), none),
         updateAll global_variables leftover)
      | InProcEvent.ran (ScriptResult.raises en em leftover) =>
        ((false, some ("Error executing code: " ++ en ++ ": " ++ em), none),
         updateAll global_variables leftover)
    | Strategy.subproc =>
      _execute_in_process global_variables timeout (sp restricted_globals)
  else
    ((false, v.2, none), global_variables)

/-- The outcome-shape invariant of claim C6: a returned
`(success, error, result)` triple populates exactly one side - either
success with no error, or failure with an error message and no result. -/
def outcome_exclusive {α : Type} (r : Bool × Option String × Option α) : Prop :=
  (r.1 = true ∧ r.2.1 = none)
  ∨ (r.1 = false ∧ (∃ m, r.2.1 = some m) ∧ r.2.2 = none)

/-! ## The input pre-filter (`validate_user_input`, lines 445-479) -/

/-- The fixed list of suspicious literal substrings (lines 463-471). -/
def suspicious_patterns : List String :=
  ["__import__", "eval(", "exec(", "compile(", "subprocess.",
   "os.system", "os.popen"]

/-- `validate_user_input`: reject empty/whitespace input, over-long
input, and input whose lowercasing contains a suspicious pattern. -/
def validate_user_input (user_input : String) : Bool × Option String :=
  if pyStrip user_input = "" then
    (false, some "Input cannot be empty")
  else if user_input.length > 10000 then
    (false, some "Input is too long (max 10000 characters)")
  else
    let lower_input := pyLower user_input
    match suspicious_patterns.find? (fun p => strContainsSub lower_input p) with
    | some p =>
      (false, some ("Input contains potentially dangerous pattern: '" ++ p ++ "'"))
    | none => (true, none)

/-! ## Predicates used to state the claims -/

/-- The node is an import of, or a from-import from, the denylisted
module `m` (matching on the top-level name, as `validate_code` does). -/
def importsModule (n : Node) (m : String) : Bool :=
  match n with
  | Sum.inl (PyStmt.importStmt names) =>
    names.any (fun a => topLevel a == m) && memb m DANGEROUS_IMPORTS
  | Sum.inl (PyStmt.importFromS (some m0) _) =>
    (topLevel m0 == m) && memb m DANGEROUS_IMPORTS
  | _ => false

/-- The denylisted module that `validate_code` attributes to this
node: the first denylisted alias of an `import` statement, or the
module of a denylisted `from`-import. -/
def flaggedModule (n : Node) : Option String :=
  match n with
  | Sum.inl (PyStmt.importStmt names) =>
    List.findSome? (fun a =>
      if memb (topLevel a) DANGEROUS_IMPORTS then some (topLevel a) else none) names
  | Sum.inl (PyStmt.importFromS (some m0) _) =>
    if memb (topLevel m0) DANGEROUS_IMPORTS then some (topLevel m0) else none
  | _ => none

/-- Claim C5's hypothesis at one node: the node is not an import, and
if it is a name it references an allow-listed primitive or a bound
capability name. -/
def referencesOnlyAllowed (n : Node) : Bool :=
  match n with
  | Sum.inl (PyStmt.importStmt _) => false
  | Sum.inl (PyStmt.importFromS _ _) => false
  | Sum.inr (PyExpr.name id) => memb id SAFE_BUILTINS || memb id capability_names
  | _ => true

/-- The node is a call whose callee is an attribute access named
`eval` or `exec` (claim C9's hypothesis). -/
def attrEvalCall (n : Node) : Bool :=
  match n with
  | Sum.inr (PyExpr.call (PyExpr.attributeE _ a) _) => a == "eval" || a == "exec"
  | _ => false

/-- No call in this node has an attribute-access callee named `eval`
or `exec` (the carve-out that claim C5 needs). -/
def noEvalExecAttrCall (n : Node) : Bool :=
  match n with
  | Sum.inr (PyExpr.call (PyExpr.attributeE _ a) _) => !(a == "eval" || a == "exec")
  | _ => true

/-- The node is not a denylisted import (claim C10's hypothesis). -/
def noDenylistedImport (n : Node) : Bool :=
  match n with
  | Sum.inl (PyStmt.importStmt names) =>
    names.all (fun a => !(memb (topLevel a) DANGEROUS_IMPORTS))
  | Sum.inl (PyStmt.importFromS (some m0) _) =>
    !(memb (topLevel m0) DANGEROUS_IMPORTS)
  | _ => true

/-- The node is not a call to a dynamic-evaluation, compilation or
file-open primitive, by name or by attribute (claim C10's hypothesis). -/
def noDangerousCall (n : Node) : Bool :=
  match n with
  | Sum.inr (PyExpr.call (PyExpr.name id) _) =>
    !(memb id ["eval", "exec", "compile", "__import__", "open"])
  | Sum.inr (PyExpr.call (PyExpr.attributeE _ a) _) =>
    !(memb a ["eval", "exec"])
  | _ => true

/-! ## Concrete sample programs and inputs -/

/-- `import os`. -/
def srcImportOs : PySource :=
  { text := "import os", parse := ParseOutcome.parsed [PyStmt.importStmt ["os"]] }

/-- `import os` followed by `import pickle`. -/
def srcTwoImports : PySource :=
  { text := "import os\nimport pickle"
    parse := ParseOutcome.parsed
      [PyStmt.importStmt ["os"], PyStmt.importStmt ["pickle"]] }

/-- `pd.eval('a + b')`: a call through attribute access on the bound
capability `pd`. -/
def srcPdEval : PySource :=
  { text := "pd.eval('a + b')"
    parse := ParseOutcome.parsed
      [PyStmt.exprStmt (PyExpr.call
        (PyExpr.attributeE (PyExpr.name "pd") "eval")
        [PyExpr.constant "'a + b'"])] }

/-- `x.exec('y')`: an `exec` method call on an arbitrary object. -/
def srcXExec : PySource :=
  { text := "x.exec('y')"
    parse := ParseOutcome.parsed
      [PyStmt.exprStmt (PyExpr.call
        (PyExpr.attributeE (PyExpr.name "x") "exec")
        [PyExpr.constant "'y'"])] }

/-- `x = 1`: a script that terminates normally without assigning
the reserved name `result`. -/
def srcAssign : PySource :=
  { text := "x = 1"
    parse := ParseOutcome.parsed [PyStmt.assign "x" (PyExpr.constant "1")] }

/-- A script containing a function definition with a delete statement,
a class definition, a lambda and a while loop - the node kinds listed
in `DANGEROUS_NODE_TYPES` - but no dangerous import or call. -/
def srcDefClassLambdaDel : PySource :=
  { text := "def f():\n    del x\nclass C:\n    y = (lambda: 1)()\nwhile a:\n    b = a + a"
    parse := ParseOutcome.parsed
      [PyStmt.funcDef "f" [PyStmt.delStmt ["x"]],
       PyStmt.classDef "C"
         [PyStmt.assign "y" (PyExpr.call (PyExpr.lambdaE (PyExpr.constant "1")) [])],
       PyStmt.whileStmt (PyExpr.name "a")
         [PyStmt.assign "b" (PyExpr.binop (PyExpr.name "a") (PyExpr.name "a"))]] }

/-- `r = pd.head(len(st))`: references only the capabilities `pd` and
`st` and the allow-listed primitive `len`, calling through attribute
access on a bound capability. -/
def srcPdHead : PySource :=
  { text := "r = pd.head(len(st))"
    parse := ParseOutcome.parsed
      [PyStmt.assign "r" (PyExpr.call
        (PyExpr.attributeE (PyExpr.name "pd") "head")
        [PyExpr.call (PyExpr.name "len") [PyExpr.name "st"]])] }

/-- A host `__builtins__` mapping that binds every allow-listed name
(to a dummy value: its own name), as CPython's does. -/
def hostStd : List (String × String) :=
  SAFE_BUILTINS.map (fun n => (n, n))

/-- A quiescent child-process observation (finished, exit code 0,
empty return dictionary), used where the subprocess oracle is not
exercised. -/
def spNone : SubprocessRun Nat :=
  { alive := false, exitcode := 0
    return_dict := { success := none, result := none, retGlobals := none, error := none } }

/-! ## Helper lemmas -/

theorem memb_iff {x : String} : ∀ {l : List String}, memb x l = true ↔ x ∈ l := by
  intro l
  induction l with
  | nil => simp [memb]
  | cons y ys ih => simp [memb, Bool.or_eq_true, beq_iff_eq, ih, List.mem_cons]

theorem findSome?_isSome_of_mem {α β : Type} {f : α → Option β} {l : List α}
    {x : α} {b : β} (hx : x ∈ l) (hf : f x = some b) :
    ∃ c, List.findSome? f l = some c := by
  induction l with
  | nil => cases hx
  | cons a as ih =>
    cases hfa : f a with
    | some c => exact ⟨c, by simp [List.findSome?_cons, hfa]⟩
    | none =>
      rcases List.mem_cons.mp hx with h | h
      · subst h; rw [hfa] at hf; cases hf
      · rcases ih h with ⟨c, hc⟩
        exact ⟨c, by simp [List.findSome?_cons, hfa, hc]⟩

theorem findSome?_append_of_none {α β : Type} {f : α → Option β}
    {pre rest : List α} (h : ∀ x ∈ pre, f x = none) :
    List.findSome? f (pre ++ rest) = List.findSome? f rest := by
  induction pre with
  | nil => rfl
  | cons a as ih =>
    have ha : f a = none := h a (List.mem_cons_self a as)
    simp only [List.cons_append, List.findSome?_cons, ha]
    exact ih (fun x hx => h x (List.mem_cons_of_mem a hx))

theorem sizeList_append : ∀ a b : List Node,
    sizeList (a ++ b) = sizeList a + sizeList b := by
  intro a b
  induction a with
  | nil => simp [sizeList]
  | cons n ns ih => simp [sizeList, ih]; omega

theorem sizeList_map_inl : ∀ l : List PyStmt,
    sizeList (l.map Sum.inl) = stmtsSize l := by
  intro l
  induction l with
  | nil => rfl
  | cons s ss ih => simp [sizeList, nodeSize, stmtsSize, ih]

theorem sizeList_map_inr : ∀ l : List PyExpr,
    sizeList (l.map Sum.inr) = exprsSize l := by
  intro l
  induction l with
  | nil => rfl
  | cons e es ih => simp [sizeList, nodeSize, exprsSize, ih]

theorem nodeSize_pos : ∀ n : Node, 1 ≤ nodeSize n := by
  intro n
  rcases n with s | e
  · cases s <;> simp [nodeSize, stmtSize] <;> omega
  · cases e <;> simp [nodeSize, exprSize] <;> omega

theorem children_size : ∀ n : Node, sizeList (children n) + 1 = nodeSize n := by
  intro n
  rcases n with s | e
  · cases s <;>
      simp [children, nodeSize, stmtSize, sizeList, sizeList_append,
            sizeList_map_inl, sizeList_map_inr] <;> omega
  · cases e <;>
      simp [children, nodeSize, exprSize, sizeList, sizeList_append,
            sizeList_map_inl, sizeList_map_inr] <;> omega

theorem sizeList_eq_zero {ns : List Node} (h : sizeList ns = 0) : ns = [] := by
  cases ns with
  | nil => rfl
  | cons n rest =>
    exfalso
    have := nodeSize_pos n
    simp [sizeList] at h
    omega

theorem mem_walkAux : ∀ (f : Nat) (ns : List Node) (x : Node),
    sizeList ns ≤ f → x ∈ ns → x ∈ walkAux f ns := by
  intro f
  induction f with
  | zero =>
    intro ns x hle hx
    rw [sizeList_eq_zero (Nat.le_zero.mp hle)] at hx
    cases hx
  | succ f ih =>
    intro ns x hle hx
    cases ns with
    | nil => cases hx
    | cons n rest =>
      have hrest : sizeList (rest ++ children n) ≤ f := by
        have h1 := children_size n
        have h2 := sizeList_append rest (children n)
        simp [sizeList] at hle
        omega
      rcases List.mem_cons.mp hx with h | h
      · subst h; exact List.mem_cons_self _ _
      · exact List.mem_cons_of_mem _
          (ih _ x hrest (List.mem_append.mpr (Or.inl h)))

theorem children_mem_walkAux : ∀ (f : Nat) (ns : List Node) (x c : Node),
    sizeList ns ≤ f → x ∈ walkAux f ns → c ∈ children x → c ∈ walkAux f ns := by
  intro f
  induction f with
  | zero =>
    intro ns x c hle hx _
    rw [sizeList_eq_zero (Nat.le_zero.mp hle)] at hx
    cases hx
  | succ f ih =>
    intro ns x c hle hx hc
    cases ns with
    | nil => cases hx
    | cons n rest =>
      have hrest : sizeList (rest ++ children n) ≤ f := by
        have h1 := children_size n
        have h2 := sizeList_append rest (children n)
        simp [sizeList] at hle
        omega
      simp only [walkAux] at hx ⊢
      rcases List.mem_cons.mp hx with h | h
      · subst h
        exact List.mem_cons_of_mem _
          (mem_walkAux f _ c hrest (List.mem_append.mpr (Or.inr hc)))
      · exact List.mem_cons_of_mem _ (ih _ x c hrest h hc)

theorem children_mem_walkAll {body : List PyStmt} {x c : Node}
    (hx : x ∈ walkAll body) (hc : c ∈ children x) : c ∈ walkAll body :=
  children_mem_walkAux _ _ x c (Nat.le_refl _) hx hc

theorem validate_rejected_reason {code : PySource}
    (h : (validate_code code).1 = false) :
    ∃ r, (validate_code code).2 = some r := by
  unfold validate_code at h ⊢
  by_cases he : pyStrip code.text = ""
  · rw [if_pos he] at h; cases h
  · rw [if_neg he] at h ⊢
    cases hp : code.parse with
    | parseError msg => simp
    | parsed body =>
      rw [hp] at h
      dsimp only at h ⊢
      cases hf : List.findSome? checkNode (walkAll body) with
      | some m => simp [hf]
      | none => rw [hf] at h; simp at h

theorem validate_accepts {code : PySource} {body : List PyStmt}
    (h2 : code.parse = ParseOutcome.parsed body)
    (hall : ∀ n ∈ walkAll body, checkNode n = none) :
    validate_code code = (true, none) := by
  unfold validate_code
  by_cases he : pyStrip code.text = ""
  · rw [if_pos he]
  · rw [if_neg he, h2]
    dsimp only
    rw [List.findSome?_eq_none_iff.mpr hall]

theorem validate_rejects {code : PySource} {body : List PyStmt} {n : Node}
    {r : String} (h1 : ¬ pyStrip code.text = "")
    (h2 : code.parse = ParseOutcome.parsed body)
    (hn : n ∈ walkAll body) (hr : checkNode n = some r) :
    (validate_code code).1 = false := by
  unfold validate_code
  rw [if_neg h1, h2]
  dsimp only
  rcases findSome?_isSome_of_mem hn hr with ⟨c, hc⟩
  rw [hc]

theorem lookup_setKey_ne {α : Type} (k k' : String) (v : α) (h : ¬ k = k') :
    ∀ l : List (String × α), List.lookup k (setKey l k' v) = List.lookup k l := by
  have hb : (k == k') = false := beq_eq_false_iff_ne.mpr h
  intro l
  induction l with
  | nil => simp [setKey, List.lookup, hb]
  | cons p rest ih =>
    rcases p with ⟨k0, v0⟩
    by_cases h0 : k0 = k'
    · have hb0 : (k0 == k') = true := beq_iff_eq.mpr h0
      have hkk0 : (k == k0) = false := beq_eq_false_iff_ne.mpr (by rw [h0]; exact h)
      simp [setKey, hb0, List.lookup, hb, hkk0]
    · have hb0 : (k0 == k') = false := beq_eq_false_iff_ne.mpr h0
      by_cases hk : k = k0
      · have hkk0 : (k == k0) = true := beq_iff_eq.mpr hk
        simp [setKey, hb0, List.lookup, hkk0]
      · have hkk0 : (k == k0) = false := beq_eq_false_iff_ne.mpr hk
        simp [setKey, hb0, List.lookup, hkk0, ih]

theorem lookup_updateAll_of_notin {α : Type} (k : String) :
    ∀ (bs d : List (String × α)), (∀ kv ∈ bs, ¬ kv.1 = k) →
      List.lookup k (updateAll d bs) = List.lookup k d := by
  intro bs
  induction bs with
  | nil => intro d _; rfl
  | cons kv rest ih =>
    intro d h
    have h1 : ¬ k = kv.1 := fun he => h kv (List.mem_cons_self kv rest) he.symm
    have step : updateAll d (kv :: rest) = updateAll (setKey d kv.1 kv.2) rest := rfl
    rw [step, ih (setKey d kv.1 kv.2) (fun x hx => h x (List.mem_cons_of_mem kv hx))]
    exact lookup_setKey_ne k kv.1 kv.2 h1 d

theorem lookup_eq_none_of_notin {α : Type} (k : String) :
    ∀ l : List (String × α), (∀ kv ∈ l, ¬ kv.1 = k) → List.lookup k l = none := by
  intro l
  induction l with
  | nil => intro _; rfl
  | cons kv rest ih =>
    intro h
    rcases kv with ⟨k0, v0⟩
    have h1 : (k == k0) = false :=
      beq_eq_false_iff_ne.mpr (fun he => h (k0, v0) (List.mem_cons_self _ _) he.symm)
    have hstep : List.lookup k ((k0, v0) :: rest) = List.lookup k rest := by
      simp [List.lookup, h1]
    rw [hstep]
    exact ih (fun x hx => h x (List.mem_cons_of_mem _ hx))

theorem checkNode_some_of_importsModule {n : Node} {m : String}
    (h : importsModule n m = true) : ∃ r, checkNode n = some r := by
  rcases n with s | e
  · cases s with
    | importStmt names =>
      simp only [importsModule, Bool.and_eq_true] at h
      obtain ⟨hany, hD⟩ := h
      obtain ⟨a, ha, hta⟩ := List.any_eq_true.mp hany
      have heq : topLevel a = m := eq_of_beq hta
      have hf : (if memb (topLevel a) DANGEROUS_IMPORTS then
            some ("Import of '" ++ topLevel a ++ "' is not allowed for security reasons")
          else none)
          = some ("Import of '" ++ topLevel a ++ "' is not allowed for security reasons") := by
        rw [heq, hD]
        simp
      exact findSome?_isSome_of_mem ha hf
    | importFromS mod names =>
      cases mod with
      | some m0 =>
        simp only [importsModule, Bool.and_eq_true] at h
        obtain ⟨hta, hD⟩ := h
        have heq : topLevel m0 = m := eq_of_beq hta
        refine ⟨"Import from '" ++ m ++ "' is not allowed for security reasons", ?_⟩
        show (if memb (topLevel m0) DANGEROUS_IMPORTS then
            some ("Import from '" ++ topLevel m0 ++ "' is not allowed for security reasons")
          else none) = _
        rw [heq, hD]
        simp
      | none => simp [importsModule] at h
    | assign t v => simp [importsModule] at h
    | exprStmt e => simp [importsModule] at h
    | funcDef nm b => simp [importsModule] at h
    | classDef nm b => simp [importsModule] at h
    | delStmt t => simp [importsModule] at h
    | whileStmt c b => simp [importsModule] at h
  · simp [importsModule] at h

theorem findSome?_flag_to_msg : ∀ (names : List String) (m : String),
    List.findSome? (fun a =>
      if memb (topLevel a) DANGEROUS_IMPORTS then some (topLevel a) else none) names
      = some m →
    List.findSome? (fun a =>
      if memb (topLevel a) DANGEROUS_IMPORTS then
        some ("Import of '" ++ topLevel a ++ "' is not allowed for security reasons")
      else none) names
      = some ("Import of '" ++ m ++ "' is not allowed for security reasons") := by
  intro names
  induction names with
  | nil => intro m h; simp [List.findSome?] at h
  | cons a as ih =>
    intro m h
    cases hmemb : memb (topLevel a) DANGEROUS_IMPORTS with
    | false =>
      simp only [List.findSome?_cons, hmemb, if_false] at h ⊢
      exact ih m h
    | true =>
      simp only [List.findSome?_cons, hmemb, if_true] at h ⊢
      cases h
      rfl

theorem checkNode_of_flaggedModule {n : Node} {m : String}
    (h : flaggedModule n = some m) :
    checkNode n = some ("Import of '" ++ m ++ "' is not allowed for security reasons")
    ∨ checkNode n = some ("Import from '" ++ m ++ "' is not allowed for security reasons") := by
  rcases n with s | e
  · cases s with
    | importStmt names =>
      left
      simp only [flaggedModule] at h
      exact findSome?_flag_to_msg names m h
    | importFromS mod names =>
      cases mod with
      | some m0 =>
        right
        simp only [flaggedModule] at h
        cases hmemb : memb (topLevel m0) DANGEROUS_IMPORTS with
        | false => rw [hmemb] at h; simp at h
        | true =>
          rw [hmemb] at h
          simp at h
          show (if memb (topLevel m0) DANGEROUS_IMPORTS then _ else none) = _
          rw [hmemb, h]
          simp
      | none => simp [flaggedModule] at h
    | assign t v => simp [flaggedModule] at h
    | exprStmt e => simp [flaggedModule] at h
    | funcDef nm b => simp [flaggedModule] at h
    | classDef nm b => simp [flaggedModule] at h
    | delStmt t => simp [flaggedModule] at h
    | whileStmt c b => simp [flaggedModule] at h
  · simp [flaggedModule] at h

theorem allowed_not_dangerous_callee {id : String}
    (h : (memb id SAFE_BUILTINS || memb id capability_names) = true) :
    memb id ["eval", "exec", "compile", "__import__", "open"] = false := by
  have hmem : id ∈ SAFE_BUILTINS ++ capability_names := by
    cases hs : memb id SAFE_BUILTINS with
    | true => exact List.mem_append.mpr (Or.inl (memb_iff.mp hs))
    | false =>
      rw [hs] at h
      simp at h
      exact List.mem_append.mpr (Or.inr (memb_iff.mp h))
  have hall : ∀ y ∈ SAFE_BUILTINS ++ capability_names,
      memb y ["eval", "exec", "compile", "__import__", "open"] = false := by decide
  exact hall id hmem

theorem bool_not_true {b : Bool} (h : (!b) = true) : b = false := by
  cases b with
  | false => rfl
  | true => exact absurd h (by decide)

theorem execute_rejected_eq {α : Type} {hasSigalrm resourceAvailable : Bool}
    {rlimitError : Option String} {code : PySource}
    {global_variables host : List (String × α)}
    {pl pd st gpd alt px go folium : Option α}
    {timeout memory_limit_mb cpu_time_limit_seconds : Nat}
    {ev : List (String × GVal α) → InProcEvent α}
    {sp : List (String × GVal α) → SubprocessRun α}
    (h : (validate_code code).1 = false) :
    execute_code_securely hasSigalrm resourceAvailable rlimitError code
        global_variables host pl pd st gpd alt px go folium timeout
        memory_limit_mb cpu_time_limit_seconds ev sp
      = ((false, (validate_code code).2, none), global_variables) := by
  simp only [execute_code_securely, h]
  simp

theorem in_process_outcome_exclusive {α : Type} (g : List (String × α))
    (t : Nat) (run : SubprocessRun α) :
    outcome_exclusive (_execute_in_process g t run).1 := by
  unfold _execute_in_process outcome_exclusive
  by_cases ha : run.alive = true
  · simp [ha]
  · by_cases he : run.exitcode = 0
    · cases hs : run.return_dict.success with
      | none => simp [ha, he, hs]
      | some b => cases b <;> simp [ha, he, hs]
    · simp [ha, he]

/-! ## Claims -/

/-- C2, counterexample to the claim as stated: the source
`import os` + `import pickle` contains an import of the denylisted
module `pickle`, and `validate_code` rejects it, but the reason names
`os` (the first flagged construct), not `pickle`. -/
theorem C2_counterexample :
    (walkAll [PyStmt.importStmt ["os"], PyStmt.importStmt ["pickle"]]).any
        (fun n => importsModule n "pickle") = true
    ∧ validate_code srcTwoImports
        = (false, some "Import of 'os' is not allowed for security reasons")
    ∧ strContainsSub "Import of 'os' is not allowed for security reasons" "pickle"
        = false :=
  ⟨by decide, by decide, by decide⟩

/-- C2 (amended): every source string containing an import of, or a
from-import from, a denylisted module (matching on the top-level name)
is rejected by `validate_code`; the reason names that module whenever
the import in question is the first disallowed construct in the
`ast.walk` order (in general the reason names the first disallowed
construct found). -/
theorem C2_denylisted_import_rejected {code : PySource} {body : List PyStmt}
    {m : String}
    (h1 : ¬ pyStrip code.text = "")
    (h2 : code.parse = ParseOutcome.parsed body)
    (h3 : (walkAll body).any (fun n => importsModule n m) = true) :
    (validate_code code).1 = false ∧
    (∀ pre n post, walkAll body = pre ++ n :: post →
       (∀ x ∈ pre, checkNode x = none) →
       flaggedModule n = some m →
       (validate_code code).2
           = some ("Import of '" ++ m ++ "' is not allowed for security reasons")
       ∨ (validate_code code).2
           = some ("Import from '" ++ m ++ "' is not allowed for security reasons")) := by
  obtain ⟨n, hn, hnm⟩ := List.any_eq_true.mp h3
  obtain ⟨r, hr⟩ := checkNode_some_of_importsModule hnm
  constructor
  · exact validate_rejects h1 h2 hn hr
  · intro pre nd post hsplit hpre hflag
    have hck := checkNode_of_flaggedModule hflag
    have hval : validate_code code
        = match List.findSome? checkNode (walkAll body) with
          | some msg => (false, some msg)
          | none => (true, none) := by
      unfold validate_code
      rw [if_neg h1, h2]
    have hfind : List.findSome? checkNode (walkAll body) = checkNode nd := by
      rw [hsplit, findSome?_append_of_none hpre]
      rcases hck with hck | hck <;> simp [List.findSome?_cons, hck]
    rcases hck with hck | hck
    · left; rw [hval, hfind, hck]
    · right; rw [hval, hfind, hck]

/-- C2, witness: `import os` is rejected. -/
theorem C2_witness : (validate_code srcImportOs).1 = false :=
  (@C2_denylisted_import_rejected srcImportOs [PyStmt.importStmt ["os"]] "os"
    (by decide) rfl (by decide)).1

/-- C9: every source containing a call whose callee is an attribute
access named `eval` or `exec` - on any object, bound capability
handles included - is rejected by `validate_code`. -/
theorem C9_attr_eval_call_rejected {code : PySource} {body : List PyStmt}
    (h1 : ¬ pyStrip code.text = "")
    (h2 : code.parse = ParseOutcome.parsed body)
    (h3 : (walkAll body).any attrEvalCall = true) :
    (validate_code code).1 = false ∧ ∃ r, (validate_code code).2 = some r := by
  obtain ⟨n, hn, hb⟩ := List.any_eq_true.mp h3
  have hr : ∃ r, checkNode n = some r := by
    rcases n with s | e
    · cases s <;> simp [attrEvalCall] at hb
    · cases e with
      | call f args =>
        cases f with
        | attributeE v a =>
          simp only [attrEvalCall] at hb
          have hm : memb a ["eval", "exec"] = true := by
            simp only [memb, Bool.or_false]
            exact hb
          refine ⟨"Call to '" ++ a ++ "' is not allowed for security reasons", ?_⟩
          show (if memb a ["eval", "exec"] then
              some ("Call to '" ++ a ++ "' is not allowed for security reasons")
            else none) = _
          rw [hm]
          simp
        | name id => simp [attrEvalCall] at hb
        | call f2 args2 => simp [attrEvalCall] at hb
        | lambdaE b2 => simp [attrEvalCall] at hb
        | constant r2 => simp [attrEvalCall] at hb
        | binop l2 r2 => simp [attrEvalCall] at hb
      | name id => simp [attrEvalCall] at hb
      | attributeE v a => simp [attrEvalCall] at hb
      | lambdaE b2 => simp [attrEvalCall] at hb
      | constant r2 => simp [attrEvalCall] at hb
      | binop l2 r2 => simp [attrEvalCall] at hb
  obtain ⟨r, hr⟩ := hr
  have hrej := validate_rejects h1 h2 hn hr
  exact ⟨hrej, validate_rejected_reason hrej⟩

/-- C9, witness: `x.exec('y')` is rejected. -/
theorem C9_witness : (validate_code srcXExec).1 = false :=
  (@C9_attr_eval_call_rejected srcXExec
    [PyStmt.exprStmt (PyExpr.call
      (PyExpr.attributeE (PyExpr.name "x") "exec") [PyExpr.constant "'y'"])]
    (by decide) rfl (by decide)).1

/-- C5, counterexample to the claim as stated: `pd.eval('a + b')`
parses, and its names and calls reference only the bound capability
`pd` (the call goes through attribute access on it), yet
`validate_code` rejects it. -/
theorem C5_counterexample :
    (walkAll [PyStmt.exprStmt (PyExpr.call
        (PyExpr.attributeE (PyExpr.name "pd") "eval")
        [PyExpr.constant "'a + b'"])]).all referencesOnlyAllowed = true
    ∧ (validate_code srcPdEval).1 = false :=
  ⟨by decide, by decide⟩

/-- C5 (amended): every source string that parses and whose names
reference only allow-listed primitives and bound capability names
(with no import statements) is accepted by `validate_code`, provided
no call's callee is an attribute access named `eval` or `exec` - such
calls are rejected even on bound capabilities. -/
theorem C5_allowed_references_accepted {code : PySource} {body : List PyStmt}
    (h2 : code.parse = ParseOutcome.parsed body)
    (hall : (walkAll body).all referencesOnlyAllowed = true)
    (hattr : (walkAll body).all noEvalExecAttrCall = true) :
    validate_code code = (true, none) := by
  apply validate_accepts h2
  intro n hn
  have hra : referencesOnlyAllowed n = true := List.all_eq_true.mp hall n hn
  rcases n with s | e
  · cases s with
    | importStmt names => simp [referencesOnlyAllowed] at hra
    | importFromS mod names => simp [referencesOnlyAllowed] at hra
    | assign t v => rfl
    | exprStmt e => rfl
    | funcDef nm b => rfl
    | classDef nm b => rfl
    | delStmt t => rfl
    | whileStmt c b => rfl
  · cases e with
    | call f args =>
      cases f with
      | name id =>
        have hchild : Sum.inr (PyExpr.name id) ∈ walkAll body :=
          children_mem_walkAll hn (by simp [children])
        have hid := List.all_eq_true.mp hall _ hchild
        have hbad : memb id ["eval", "exec", "compile", "__import__", "open"] = false :=
          allowed_not_dangerous_callee (by simpa [referencesOnlyAllowed] using hid)
        show (if memb id ["eval", "exec", "compile", "__import__", "open"] then
            some ("Call to '" ++ id ++ "' is not allowed for security reasons")
          else none) = none
        rw [hbad]
        simp
      | attributeE v a =>
        have hna : noEvalExecAttrCall
            (Sum.inr (PyExpr.call (PyExpr.attributeE v a) args)) = true :=
          List.all_eq_true.mp hattr _ hn
        simp only [noEvalExecAttrCall] at hna
        have hm : memb a ["eval", "exec"] = false := by
          simp only [memb, Bool.or_false]
          exact bool_not_true hna
        show (if memb a ["eval", "exec"] then
            some ("Call to '" ++ a ++ "' is not allowed for security reasons")
          else none) = none
        rw [hm]
        simp
      | call f2 args2 => rfl
      | lambdaE b2 => rfl
      | constant r2 => rfl
      | binop l2 r2 => rfl
    | name id => rfl
    | attributeE v a => rfl
    | lambdaE b2 => rfl
    | constant r2 => rfl
    | binop l2 r2 => rfl

/-- C5, witness: `r = pd.head(len(st))` is accepted. -/
theorem C5_witness : validate_code srcPdHead = (true, none) :=
  @C5_allowed_references_accepted srcPdHead
    [PyStmt.assign "r" (PyExpr.call
      (PyExpr.attributeE (PyExpr.name "pd") "head")
      [PyExpr.call (PyExpr.name "len") [PyExpr.name "st"]])]
    rfl (by decide) (by decide)

/-- C10: `validate_code` never consults `DANGEROUS_NODE_TYPES`: every
source that parses and contains no denylisted import and no dangerous
call is accepted, whatever node kinds (function/class definitions,
lambdas, delete statements, ...) it contains. -/
theorem C10_node_kinds_not_enforced {code : PySource} {body : List PyStmt}
    (h2 : code.parse = ParseOutcome.parsed body)
    (himp : (walkAll body).all noDenylistedImport = true)
    (hcall : (walkAll body).all noDangerousCall = true) :
    validate_code code = (true, none) := by
  apply validate_accepts h2
  intro n hn
  have hi := List.all_eq_true.mp himp n hn
  have hc := List.all_eq_true.mp hcall n hn
  rcases n with s | e
  · cases s with
    | importStmt names =>
      simp only [noDenylistedImport] at hi
      apply List.findSome?_eq_none_iff.mpr
      intro a ha
      have hm : memb (topLevel a) DANGEROUS_IMPORTS = false :=
        bool_not_true (List.all_eq_true.mp hi a ha)
      show (if memb (topLevel a) DANGEROUS_IMPORTS then
          some ("Import of '" ++ topLevel a ++ "' is not allowed for security reasons")
        else none) = none
      rw [hm]
      simp
    | importFromS mod names =>
      cases mod with
      | some m0 =>
        simp only [noDenylistedImport] at hi
        have hm : memb (topLevel m0) DANGEROUS_IMPORTS = false := bool_not_true hi
        show (if memb (topLevel m0) DANGEROUS_IMPORTS then
            some ("Import from '" ++ topLevel m0 ++ "' is not allowed for security reasons")
          else none) = none
        rw [hm]
        simp
      | none => rfl
    | assign t v => rfl
    | exprStmt e => rfl
    | funcDef nm b => rfl
    | classDef nm b => rfl
    | delStmt t => rfl
    | whileStmt c b => rfl
  · cases e with
    | call f args =>
      cases f with
      | name id =>
        simp only [noDangerousCall] at hc
        have hm : memb id ["eval", "exec", "compile", "__import__", "open"] = false :=
          bool_not_true hc
        show (if memb id ["eval", "exec", "compile", "__import__", "open"] then
            some ("Call to '" ++ id ++ "' is not allowed for security reasons")
          else none) = none
        rw [hm]
        simp
      | attributeE v a =>
        simp only [noDangerousCall] at hc
        have hm : memb a ["eval", "exec"] = false := bool_not_true hc
        show (if memb a ["eval", "exec"] then
            some ("Call to '" ++ a ++ "' is not allowed for security reasons")
          else none) = none
        rw [hm]
        simp
      | call f2 args2 => rfl
      | lambdaE b2 => rfl
      | constant r2 => rfl
      | binop l2 r2 => rfl
    | name id => rfl
    | attributeE v a => rfl
    | lambdaE b2 => rfl
    | constant r2 => rfl
    | binop l2 r2 => rfl

/-- C10, witness: a source containing a function definition, a delete
statement, a class definition, a lambda and a while loop - node kinds
all listed in `DANGEROUS_NODE_TYPES` - is accepted. -/
theorem C10_witness : validate_code srcDefClassLambdaDel = (true, none) :=
  @C10_node_kinds_not_enforced srcDefClassLambdaDel
    [PyStmt.funcDef "f" [PyStmt.delStmt ["x"]],
     PyStmt.classDef "C"
       [PyStmt.assign "y" (PyExpr.call (PyExpr.lambdaE (PyExpr.constant "1")) [])],
     PyStmt.whileStmt (PyExpr.name "a")
       [PyStmt.assign "b" (PyExpr.binop (PyExpr.name "a") (PyExpr.name "a"))]]
    rfl (by decide) (by decide)

/-- C1, the code evaluated at the failing input (no capabilities
supplied, a host `__builtins__` binding every allow-listed name): the
namespace binds exactly `__builtins__`, whose keys are exactly
`SAFE_BUILTINS`, and leaves `result` unbound - but `SAFE_BUILTINS`
includes `print`, a host I/O primitive, so the restricted builtins do
contain an I/O primitive; the in-source comment claims `print` is
redirected to the logger, yet no redirection exists in the
repository. -/
theorem C1_print_in_restricted_builtins :
    create_restricted_globals hostStd none none none none none none none none
      = [("__builtins__", GVal.builtinsDict (SAFE_BUILTINS.map (fun n => (n, n))))]
    ∧ memb "print" SAFE_BUILTINS = true
    ∧ memb "print" spec_io_primitives = true
    ∧ List.lookup "result"
        (create_restricted_globals hostStd none none none none none none none none)
      = none :=
  ⟨rfl, rfl, rfl, rfl⟩

/-- C3: when `validate_code` rejects the source, `execute_code_securely`
returns a failure carrying the rejection reason and no result value,
leaves the caller-supplied `global_variables` unchanged, and never
evaluates the script (its output is independent of the execution
oracles). -/
theorem C3_rejected_no_side_effect {α : Type}
    (hasSigalrm resourceAvailable : Bool) (rlimitError : Option String)
    (code : PySource) (global_variables host : List (String × α))
    (pl pd st gpd alt px go folium : Option α)
    (timeout memory_limit_mb cpu_time_limit_seconds : Nat)
    (ev : List (String × GVal α) → InProcEvent α)
    (sp : List (String × GVal α) → SubprocessRun α)
    (h : (validate_code code).1 = false) :
    execute_code_securely hasSigalrm resourceAvailable rlimitError code
        global_variables host pl pd st gpd alt px go folium timeout
        memory_limit_mb cpu_time_limit_seconds ev sp
      = ((false, (validate_code code).2, none), global_variables)
    ∧ (∃ r, (validate_code code).2 = some r)
    ∧ (∀ (ev' : List (String × GVal α) → InProcEvent α)
         (sp' : List (String × GVal α) → SubprocessRun α),
         execute_code_securely hasSigalrm resourceAvailable rlimitError code
             global_variables host pl pd st gpd alt px go folium timeout
             memory_limit_mb cpu_time_limit_seconds ev' sp'
           = execute_code_securely hasSigalrm resourceAvailable rlimitError code
             global_variables host pl pd st gpd alt px go folium timeout
             memory_limit_mb cpu_time_limit_seconds ev sp) :=
  ⟨execute_rejected_eq h, validate_rejected_reason h,
   fun _ _ => (execute_rejected_eq h).trans (execute_rejected_eq h).symm⟩

/-- C3, witness: executing `import os` is rejected with the validator's
reason, no result, and untouched globals. -/
theorem C3_witness :
    execute_code_securely true true none srcImportOs
        ([] : List (String × Nat)) [] none none none none none none none none
        30 512 60 (fun _ => InProcEvent.ran (ScriptResult.ok []))
        (fun _ => spNone)
      = ((false, (validate_code srcImportOs).2, none), []) :=
  (@C3_rejected_no_side_effect Nat true true none srcImportOs [] []
    none none none none none none none none 30 512 60
    (fun _ => InProcEvent.ran (ScriptResult.ok []))
    (fun _ => spNone) (by decide)).1

/-- C4, counterexample to the claim as stated: `set_resource_limits`
does report unavailability, but the host's strategy selection consults
only SIGALRM availability, never the limiter's verdict: on a
configuration with resource limits unavailable yet SIGALRM present,
the in-process strategy is chosen (the outcome comes from the
in-process timeout arm, although the subprocess observation was a
clean success). -/
theorem C4_counterexample :
    set_resource_limits false 512 60 none
      = (false, some "Resource limits not available on this platform")
    ∧ chosen_strategy true = Strategy.inProcess
    ∧ Strategy.inProcess ≠ Strategy.subproc
    ∧ (execute_code_securely true false none srcAssign
        ([] : List (String × Nat)) [] none none none none none none none none
        30 512 60 (fun _ => InProcEvent.timedOut [])
        (fun _ => { alive := false, exitcode := 0,
                    return_dict := target_func 512 (ScriptResult.ok [("x", 1)]) })).1
      = (false, some "Code execution timed out after 30 seconds", none) :=
  ⟨rfl, rfl, by decide, rfl⟩

/-- C4 (amended): on a platform without the resource module,
`set_resource_limits` returns an unavailability failure rather than
silently no-op-ing; the execution host, however, selects its isolation
strategy solely by SIGALRM availability - subprocess exactly when
SIGALRM is absent - and ignores the limiter's verdict entirely (its
behaviour is independent of resource availability), so the fallback to
the subprocess strategy on limiter-unavailable platforms holds only
because platforms lacking the resource module (Windows) also lack
SIGALRM. -/
theorem C4_limits_unavailable_behavior :
    (∀ (mm cs : Nat) (re : Option String),
       set_resource_limits false mm cs re
         = (false, some "Resource limits not available on this platform"))
    ∧ chosen_strategy false = Strategy.subproc
    ∧ (∀ (α : Type) (hs ra1 ra2 : Bool) (re1 re2 : Option String)
         (code : PySource) (g host : List (String × α))
         (pl pd st gpd alt px go folium : Option α) (t mm cs : Nat)
         (ev : List (String × GVal α) → InProcEvent α)
         (sp : List (String × GVal α) → SubprocessRun α),
         execute_code_securely hs ra1 re1 code g host pl pd st gpd alt px go folium
             t mm cs ev sp
           = execute_code_securely hs ra2 re2 code g host pl pd st gpd alt px go
             folium t mm cs ev sp) :=
  ⟨fun _ _ _ => rfl, rfl,
   fun _ _ _ _ _ _ _ _ _ _ _ _ _ _ _ _ _ _ _ _ _ _ => rfl⟩

/-- C6: every outcome of `execute_code_securely` populates exactly one
side - success with no error (result possibly present), or failure
with an error message and no result. -/
theorem C6_outcome_exclusive {α : Type}
    (hasSigalrm resourceAvailable : Bool) (rlimitError : Option String)
    (code : PySource) (global_variables host : List (String × α))
    (pl pd st gpd alt px go folium : Option α)
    (timeout memory_limit_mb cpu_time_limit_seconds : Nat)
    (ev : List (String × GVal α) → InProcEvent α)
    (sp : List (String × GVal α) → SubprocessRun α) :
    outcome_exclusive
      (execute_code_securely hasSigalrm resourceAvailable rlimitError code
        global_variables host pl pd st gpd alt px go folium timeout
        memory_limit_mb cpu_time_limit_seconds ev sp).1 := by
  by_cases hb : (validate_code code).1 = true
  · simp only [execute_code_securely, hb, if_true]
    cases hasSigalrm with
    | true =>
      simp only [chosen_strategy, if_true]
      cases hev : ev (create_restricted_globals host pl pd st gpd alt px go folium) with
      | timedOut leftover =>
        simp [outcome_exclusive, hev]
      | ran res =>
        cases res with
        | ok binds => simp [outcome_exclusive, hev]
        | memoryError leftover => simp [outcome_exclusive, hev]
        | raises en em leftover => simp [outcome_exclusive, hev]
    | false =>
      simp only [chosen_strategy, if_false]
      exact in_process_outcome_exclusive _ _ _
  · have hb' : (validate_code code).1 = false := by
      cases h0 : (validate_code code).1 with
      | false => rfl
      | true => exact absurd h0 hb
    rw [execute_rejected_eq hb']
    obtain ⟨r, hr⟩ := validate_rejected_reason hb'
    exact Or.inr ⟨rfl, ⟨r, hr⟩, rfl⟩

/-- C7, counterexample to the claim as stated: the script `x = 1`
terminates normally without assigning `result`, but because the
caller-supplied `global_variables` already binds `result` (to 7), the
in-process strategy returns Success with that stale value instead of
None (line 424 reads `result` from the caller's dictionary after
execution). -/
theorem C7_counterexample :
    (execute_code_securely true true none srcAssign
        [("result", (7 : Nat))] [] none none none none none none none none
        30 512 60 (fun _ => InProcEvent.ran (ScriptResult.ok [("x", 1)]))
        (fun _ => spNone)).1
      = (true, none, some 7) := rfl

/-- C7 (amended): a script that terminates normally without assigning
the reserved name `result` yields Success with value None, provided
the caller-supplied `global_variables` does not already bind `result`
(under either isolation strategy; the subprocess strategy needs no
proviso since it reads `result` from the child's fresh locals). -/
theorem C7_no_result_assignment {α : Type}
    (hasSigalrm resourceAvailable : Bool) (rlimitError : Option String)
    (code : PySource) (global_variables host : List (String × α))
    (pl pd st gpd alt px go folium : Option α)
    (timeout memory_limit_mb cpu_time_limit_seconds : Nat)
    (binds : List (String × α))
    (hv : (validate_code code).1 = true)
    (hb : binds.all (fun kv => !(kv.1 == "result")) = true)
    (hg : List.lookup "result" global_variables = none) :
    (execute_code_securely hasSigalrm resourceAvailable rlimitError code
        global_variables host pl pd st gpd alt px go folium timeout
        memory_limit_mb cpu_time_limit_seconds
        (fun _ => InProcEvent.ran (ScriptResult.ok binds))
        (fun _ => { alive := false, exitcode := 0,
                    return_dict := target_func memory_limit_mb
                                     (ScriptResult.ok binds) })).1
      = (true, none, none) := by
  have hne : ∀ kv ∈ binds, ¬ kv.1 = "result" := by
    intro kv hkv he
    have hkv2 := List.all_eq_true.mp hb kv hkv
    rw [he] at hkv2
    exact absurd hkv2 (by decide)
  simp only [execute_code_securely, hv, if_true]
  cases hasSigalrm with
  | true =>
    simp only [chosen_strategy, if_true]
    have hlook : List.lookup "result" (updateAll global_variables binds) = none := by
      rw [lookup_updateAll_of_notin "result" binds global_variables hne]
      exact hg
    simp [hlook]
  | false =>
    simp only [chosen_strategy, if_false]
    simp only [_execute_in_process, target_func]
    rw [lookup_eq_none_of_notin "result" binds hne]
    simp

/-- C7, witness: `x = 1` with empty caller globals yields
`(true, none, none)`. -/
theorem C7_witness :
    (execute_code_securely true true none srcAssign
        ([] : List (String × Nat)) [] none none none none none none none none
        30 512 60 (fun _ => InProcEvent.ran (ScriptResult.ok [("x", 1)]))
        (fun _ => { alive := false, exitcode := 0,
                    return_dict := target_func 512 (ScriptResult.ok [("x", 1)]) })).1
      = (true, none, none) :=
  @C7_no_result_assignment Nat true true none srcAssign [] []
    none none none none none none none none 30 512 60 [("x", 1)]
    (by decide) (by decide) rfl

/-- C8, counterexample to the claim as stated: `EVAL(1)` contains none
of the suspicious literal substrings, is non-empty and short, so the
claim says it is accepted - but `validate_user_input` lowercases the
input first and rejects it. -/
theorem C8_counterexample :
    suspicious_patterns.all (fun p => !(strContainsSub "EVAL(1)" p)) = true
    ∧ ¬ pyStrip "EVAL(1)" = ""
    ∧ "EVAL(1)".length ≤ 10000
    ∧ (validate_user_input "EVAL(1)").1 = false :=
  ⟨by decide, by decide, by decide, by decide⟩

/-- C8 (amended): `validate_user_input` rejects exactly the inputs
that are empty/whitespace-only, longer than 10000 characters, or whose
lowercasing contains one of the suspicious literal substrings
(containment is case-insensitive); in particular
`call subprocess.call()` is rejected and
`what is the average of column X` is accepted. -/
theorem C8_input_filter_characterization :
    (∀ s : String, (validate_user_input s).1 = false ↔
       (pyStrip s = "" ∨ 10000 < s.length
        ∨ ∃ p ∈ suspicious_patterns, strContainsSub (pyLower s) p = true))
    ∧ (validate_user_input "call subprocess.call()").1 = false
    ∧ validate_user_input "what is the average of column X" = (true, none) := by
  refine ⟨?_, by decide, by decide⟩
  intro s
  unfold validate_user_input
  by_cases he : pyStrip s = ""
  · simp [he]
  · rw [if_neg he]
    by_cases hl : s.length > 10000
    · rw [if_pos hl]
      simp [he, hl]
    · rw [if_neg hl]
      dsimp only
      cases hf : suspicious_patterns.find? (fun p => strContainsSub (pyLower s) p) with
      | some p =>
        exact iff_of_true rfl
          (Or.inr (Or.inr ⟨p, List.mem_of_find?_eq_some hf, List.find?_some hf⟩))
      | none =>
        refine iff_of_false (by simp) ?_
        rintro (h | h | ⟨p, hp, hc⟩)
        · exact he h
        · exact hl h
        · have hnone := List.find?_eq_none.mp hf p hp
          exact hnone hc

/-- C8, witness: an input containing `eval(` is rejected, via the
characterization. -/
theorem C8_witness :
    (validate_user_input "please eval(2+2) for me").1 = false :=
  (C8_input_filter_characterization.1 "please eval(2+2) for me").mpr
    (Or.inr (Or.inr ⟨"eval(", by decide, by decide⟩))

end CodeExecutor
